import Mathlib

/-!
A shallow embedding of `src/log.go` (package `log` of tadvi/logsim): a minimal
leveled logger.  Go strings are modelled as Lean `String`s (sequences of
characters); the output sink (`io.WriteCloser`) is modelled as a record of the
byte sequences passed to `Write`, together with a flag saying whether the
device actually accepts writes (the code discards `Write`'s error, so a
failing device only affects what is stored, never control flow).  The runtime
services the code consults — `runtime.Caller` and `time.Now` — are modelled as
an explicit environment passed to `log`.
-/

namespace Logsim

/-- Decimal digit character, as produced by Go's integer formatting. -/
def digitChar (n : Nat) : Char := Char.ofNat (48 + n)

/-- Fuel-indexed digit extraction; the fuel only bounds the recursion depth
and `natDigits` always supplies enough of it. -/
def natDigitsAux (fuel n : Nat) : List Char :=
  match fuel with
  | 0 => [digitChar n]
  | fuel + 1 =>
    if n < 10 then [digitChar n]
    else natDigitsAux fuel (n / 10) ++ [digitChar (n % 10)]

/-- Decimal digits of a natural number, most significant first
(the standard rendering used by `strconv.Itoa` and `fmt`'s `%d`). -/
def natDigits (n : Nat) : List Char := natDigitsAux n n

/-- Decimal rendering of a natural number. -/
def natRepr (n : Nat) : String := ⟨natDigits n⟩

/-- Decimal rendering of a (possibly negative) integer, as `strconv.Itoa`. -/
def intRepr (i : Int) : String :=
  if i < 0 then ⟨'-' :: natDigits i.natAbs⟩ else ⟨natDigits i.toNat⟩

/-- Right-pad a string with spaces to the given width (no-op when already
at least that wide): Go's `%-<w>s` / `%-<w>d` left-justified padding. -/
def padRight (s : String) (w : Nat) : String :=
  ⟨s.data ++ List.replicate (w - s.data.length) ' '⟩

/-- Keep only the trailing `n` characters of a string: Go's
`s[len(s)-n:]` (for `n ≤ len s`). -/
def takeRight (s : String) (n : Nat) : String :=
  ⟨s.data.drop (s.data.length - n)⟩

/-- Go's `filepath.Base` on a unix path: strip trailing slashes, keep the
part after the last slash; empty path gives "."; all-slash path gives "/". -/
def filepathBase (p : String) : String :=
  if p = "" then "."
  else
    let chars := p.data.reverse.dropWhile (· = '/')
    if chars = [] then "/"
    else ⟨(chars.takeWhile (· ≠ '/')).reverse⟩

/-- A non-nil Go `error` value: what `fmt.Errorf` constructs and what
`%v` renders via its `Error()` method. -/
structure GoError where
  msg : String
deriving DecidableEq, Repr

/-- An argument passed through `...interface{}` to a formatting verb. -/
inductive FmtArg where
  | int (i : Int)
  | str (s : String)
  | err (e : GoError)
deriving DecidableEq, Repr

/-- Rendering of one argument under the verbs the package uses
(`%d` on ints, `%s` on strings, `%v` on errors). -/
def fmtArgStr : FmtArg → String
  | .int i => intRepr i
  | .str s => s
  | .err e => e.msg

/-- Character-level engine of `fmt.Sprintf` restricted to the verbs used in
this repository: `%d`, `%s`, `%v` substitute the next argument, `%%` is a
literal percent; a verb with no argument left renders Go's
missing-argument notice. -/
def sprintfAux : List Char → List FmtArg → List Char
  | [], _ => []
  | ['%'], _ => ['%']
  | '%' :: c :: rest, args =>
    if c = '%' then '%' :: sprintfAux rest args
    else if c = 'd' ∨ c = 's' ∨ c = 'v' then
      match args with
      | a :: moreArgs => (fmtArgStr a).data ++ sprintfAux rest moreArgs
      | [] => '%' :: '!' :: c :: ('(' :: "MISSING)".data) ++ sprintfAux rest []
    else '%' :: c :: sprintfAux rest args
  | c :: rest, args => c :: sprintfAux rest args

/-- `fmt.Sprintf(format, args...)` for the verbs this package uses. -/
def sprintf (format : String) (args : List FmtArg) : String :=
  ⟨sprintfAux format.data args⟩

/-- A wall-clock instant as `time.Now()` delivers it (local time fields). -/
structure Timestamp where
  year : Nat
  month : Nat
  day : Nat
  hour : Nat
  minute : Nat
  second : Nat
deriving DecidableEq, Repr

/-- Zero-pad the decimal rendering of `n` on the left to width `w`
(Go's zero-padded time components). -/
def zeroPad (w : Nat) (n : Nat) : String :=
  ⟨List.replicate (w - (natDigits n).length) '0' ++ natDigits n⟩

/-- `t.Format("2006/01/02 15:04:05 ")`: the timestamp segment the logger
prepends, trailing space included. -/
def renderTime (t : Timestamp) : String :=
  zeroPad 4 t.year ++ "/" ++ zeroPad 2 t.month ++ "/" ++ zeroPad 2 t.day ++ " "
    ++ zeroPad 2 t.hour ++ ":" ++ zeroPad 2 t.minute ++ ":" ++ zeroPad 2 t.second ++ " "

/-- The severity ordinals: `FatalLevel Level = iota; ErrorLevel; InfoLevel;
DebugLevel`.  `Level` is a Go `int`, so it is modelled as `Int` (values
outside 0..3 can be constructed directly). -/
def FatalLevel : Int := 0

/-- Error severity ordinal. -/
def ErrorLevel : Int := 1

/-- Info severity ordinal. -/
def InfoLevel : Int := 2

/-- Debug severity ordinal. -/
def DebugLevel : Int := 3

/-- The `levelToLetter` map: the four recognized levels and their
single-character display markers; `none` outside the map. -/
def levelToLetter (l : Int) : Option String :=
  if l = FatalLevel then some "F"
  else if l = ErrorLevel then some "E"
  else if l = InfoLevel then some "_"
  else if l = DebugLevel then some "."
  else none

/-- The marker actually placed on the line: the letter from the map, or
`strconv.Itoa(int(level))` when the lookup misses (lines 93-96 of log.go). -/
def letterOf (level : Int) : String :=
  match levelToLetter level with
  | some s => s
  | none => intRepr level

/-- The output sink (`io.WriteCloser`).  `calls` records every byte sequence
passed to `Write`; `ok` says whether the device accepts writes; `stored` is
what the device actually persisted.  The code discards `Write`'s error, so
`ok` never influences control flow. -/
structure Sink where
  calls : List String
  ok : Bool
  stored : List String
deriving DecidableEq, Repr

/-- One `Write` call on the sink. -/
def Sink.write (s : Sink) (m : String) : Sink :=
  { s with
    calls := s.calls ++ [m]
    stored := if s.ok then s.stored ++ [m] else s.stored }

/-- The `Logger` struct: the `Level` threshold, the `Time` flag, and the
owned sink. -/
structure Logger where
  level : Int
  time : Bool
  sink : Sink
deriving DecidableEq, Repr

/-- The runtime services `log` consults: `runtime.Caller` (frame depth to an
optional file path and line number) and `time.Now()`. -/
structure Env where
  caller : Nat → Option (String × Nat)
  now : Timestamp

/-- Caller resolution as the code performs it at `runtime.Caller(2+skip)`:
on failure the file becomes the literal "unknown" and the line keeps the
runtime's zero value. -/
def resolveCaller (env : Env) (skip : Nat) : String × Nat :=
  match env.caller (2 + skip) with
  | some fl => fl
  | none => ("unknown", 0)

/-- `fmt.Sprintf("%s:%-4d", filepath.Base(file), line)`: basename, colon,
line number left-justified in a minimum field width of 4. -/
def flRaw (file : String) (line : Nat) : String :=
  filepathBase file ++ ":" ++ padRight (natRepr line) 4

/-- The 18-character location field of lines 86-90: the raw rendering,
truncated to its trailing 18 characters when longer, then right-padded with
spaces to width 18 by `%-18s`. -/
def locField (file : String) (line : Nat) : String :=
  let fl := flRaw file line
  let fl := if fl.data.length > 18 then takeRight fl 18 else fl
  padRight fl 18

/-- `strings.HasSuffix(msg, "\n")`: the message's last character is a
newline. -/
def hasSuffixNL (s : String) : Bool := s.data.getLast? == some '\n'

/-- The complete line `log` builds before writing (lines 79-106): format the
body, prepend location field, marker, optional timestamp, and append a
newline when one is not already present. -/
def buildMsg (time : Bool) (now : Timestamp) (level : Int)
    (fileLine : String × Nat) (body : String) : String :=
  let msg := body
  let msg := locField fileLine.1 fileLine.2 ++ " " ++ msg
  let msg := letterOf level ++ " " ++ msg
  let msg := if time then renderTime now ++ msg else msg
  if hasSuffixNL msg then msg else msg ++ "\n"

/-- The core emission routine `Logger.log` (lines 73-111): gate on severity,
format, locate the caller, assemble the line, write it to the sink.  The
mutex serializes writes and is not part of the sequential state. -/
def Logger.log (env : Env) (l : Logger) (level : Int) (skip : Nat)
    (format : String) (a : List FmtArg) : Logger :=
  if level > l.level then l
  else
    { l with
      sink := l.sink.write
        (buildMsg l.time env.now level (resolveCaller env skip)
          (sprintf format a)) }

/-- `Logger.Debugf`. -/
def Logger.Debugf (env : Env) (l : Logger) (format : String)
    (a : List FmtArg) : Logger :=
  l.log env DebugLevel 1 format a

/-- `Logger.Infof`. -/
def Logger.Infof (env : Env) (l : Logger) (format : String)
    (a : List FmtArg) : Logger :=
  l.log env InfoLevel 1 format a

/-- `Logger.Errorf`: logs at Error level and returns the error constructed
by `fmt.Errorf(format, a...)` (always a non-nil error, modelled as
`some ⟨message⟩`). -/
def Logger.Errorf (env : Env) (l : Logger) (format : String)
    (a : List FmtArg) : Logger × Option GoError :=
  (l.log env ErrorLevel 1 format a, some ⟨sprintf format a⟩)

/-- `Logger.Error`: logs `"Error: %v\n"` with the error at Error level and
returns the error it was given. -/
def Logger.Error (env : Env) (l : Logger) (err : GoError) :
    Logger × GoError :=
  (l.log env ErrorLevel 1 "Error: %v\n" [.err err], err)

/-- `Logger.Fatalf`: logs at Fatal level, then `os.Exit(1)`.  The second
component is the process exit status the call ends with; the function never
returns to its caller. -/
def Logger.Fatalf (env : Env) (l : Logger) (format : String)
    (a : List FmtArg) : Logger × Nat :=
  (l.log env FatalLevel 1 format a, 1)

/-- `Logger.Fatal`: logs `"Error: %v\n"` with the error at Fatal level, then
`os.Exit(1)`. -/
def Logger.Fatal (env : Env) (l : Logger) (err : GoError) : Logger × Nat :=
  (l.log env FatalLevel 1 "Error: %v\n" [.err err], 1)

/-- The fixed left part of an emitted line: optional timestamp, marker,
space, 18-character location field, space. -/
def msgHdr (time : Bool) (now : Timestamp) (level : Int)
    (fileLine : String × Nat) : String :=
  let core := letterOf level ++ " " ++ locField fileLine.1 fileLine.2 ++ " "
  if time then renderTime now ++ core else core

/-- The configuration-frame relation: the second logger has the same
threshold, timestamp flag and sink device as the first, and its sink's
call record and stored contents only extend the first's. -/
def preservesConfig (l2 l1 : Logger) : Prop :=
  l2.level = l1.level ∧ l2.time = l1.time ∧ l2.sink.ok = l1.sink.ok ∧
  (∃ ext, l2.sink.calls = l1.sink.calls ++ ext) ∧
  (∃ ext, l2.sink.stored = l1.sink.stored ++ ext)

/-- Concrete environment used by the witnesses: caller resolution always
succeeds with file `a.go`, line 7; a fixed clock. -/
def envA : Env := ⟨fun _ => some ("a.go", 7), ⟨2020, 1, 2, 3, 4, 5⟩⟩

/-- A logger at Error threshold over an empty working sink, timestamps off. -/
def lgA : Logger := ⟨ErrorLevel, false, ⟨[], true, []⟩⟩

/-- A logger at Debug threshold over an empty working sink, timestamps off. -/
def lgB : Logger := ⟨DebugLevel, false, ⟨[], true, []⟩⟩

/-- A logger whose threshold is the out-of-range ordinal 9, over an empty
working sink, timestamps off. -/
def lgC : Logger := ⟨9, false, ⟨[], true, []⟩⟩

/-! ## Helper lemmas -/

lemma length_data (s : String) : s.length = s.data.length := rfl

lemma data_space : (" " : String).data = [' '] := rfl

lemma data_nl : ("\n" : String).data = ['\n'] := rfl

lemma length_padRight (s : String) (w : Nat) :
    (padRight s w).data.length = s.data.length + (w - s.data.length) := by
  simp [padRight]

lemma length_takeRight (s : String) (n : Nat) :
    (takeRight s n).data.length = s.data.length - (s.data.length - n) := by
  simp [takeRight]

lemma getLast?_append_space (q : String) : (q ++ " ").data.getLast? = some ' ' := by
  rw [String.data_append, List.getLast?_append]
  rfl

lemma hasSuffixNL_header (p b : String) (hp : p.data.getLast? = some ' ') :
    hasSuffixNL (p ++ b) = hasSuffixNL b := by
  unfold hasSuffixNL
  rw [String.data_append, List.getLast?_append]
  cases hb : b.data.getLast? with
  | none => simp [hb, hp]
  | some c => simp [hb]

lemma hasSuffixNL_concat (s : String) : hasSuffixNL (s ++ "\n") = true := by
  unfold hasSuffixNL
  rw [String.data_append, data_nl, List.getLast?_concat]
  rfl

lemma msgHdr_ends_space (time : Bool) (now : Timestamp) (level : Int)
    (fileLine : String × Nat) :
    (msgHdr time now level fileLine).data.getLast? = some ' ' := by
  cases time with
  | false => exact getLast?_append_space _
  | true =>
    have h := getLast?_append_space
      (renderTime now ++ (letterOf level ++ " " ++ locField fileLine.1 fileLine.2))
    rw [String.append_assoc] at h
    exact h

/-- The line `log` assembles is the header followed by the body, with a
newline appended exactly when the body does not already end in one: the
newline test at line 104 of log.go inspects the whole message, but the
header always ends in a space, so only the body decides it. -/
lemma buildMsg_split (time : Bool) (now : Timestamp) (level : Int)
    (fileLine : String × Nat) (body : String) :
    buildMsg time now level fileLine body =
      msgHdr time now level fileLine ++
        (if hasSuffixNL body then body else body ++ "\n") := by
  have hsp := msgHdr_ends_space time now level fileLine
  have hnl := hasSuffixNL_header _ body hsp
  have hmsg : (if time
        then renderTime now ++
          (letterOf level ++ " " ++ (locField fileLine.1 fileLine.2 ++ " " ++ body))
        else letterOf level ++ " " ++ (locField fileLine.1 fileLine.2 ++ " " ++ body))
      = msgHdr time now level fileLine ++ body := by
    cases time <;> simp [msgHdr, String.append_assoc]
  simp only [buildMsg]
  rw [hmsg, hnl]
  by_cases hb : hasSuffixNL body <;> simp [hb, String.append_assoc]

lemma sprintf_error_fmt (e : GoError) :
    sprintf "Error: %v\n" [.err e] = "Error: " ++ e.msg ++ "\n" := by
  apply String.ext
  have hd : ("Error: %v\n").data = ['E','r','r','o','r',':',' ','%','v','\n'] := rfl
  simp [sprintf, hd, sprintfAux, fmtArgStr, String.data_append, data_nl]

lemma natDigitsAux_small (f n : Nat) (h : n < 10) :
    natDigitsAux f n = [digitChar n] := by
  cases f <;> simp [natDigitsAux, h]

/-- A number below 1000 renders in at most three decimal digits. -/
lemma natDigits_length_le_three (n : Nat) (h : n < 1000) :
    (natDigits n).length ≤ 3 := by
  unfold natDigits
  by_cases h1 : n < 10
  · rw [natDigitsAux_small _ _ h1]
    simp
  · obtain ⟨f, rfl⟩ : ∃ f, n = f + 1 := ⟨n - 1, by omega⟩
    rw [show natDigitsAux (f + 1) (f + 1)
        = natDigitsAux f ((f + 1) / 10) ++ [digitChar ((f + 1) % 10)] by
      simp [natDigitsAux, h1]]
    by_cases h2 : (f + 1) / 10 < 10
    · rw [natDigitsAux_small _ _ h2]
      simp
    · obtain ⟨g, rfl⟩ : ∃ g, f = g + 1 := ⟨f - 1, by omega⟩
      rw [show natDigitsAux (g + 1) ((g + 2) / 10)
          = natDigitsAux g ((g + 2) / 10 / 10) ++ [digitChar ((g + 2) / 10 % 10)] by
        simp [natDigitsAux, h2]]
      rw [natDigitsAux_small _ _ (by omega)]
      simp

lemma getLast?_replicate_pos {α : Type} (m : Nat) (c : α) (h : 0 < m) :
    (List.replicate m c).getLast? = some c := by
  induction m with
  | zero => omega
  | succ k ih =>
    cases k with
    | zero => rfl
    | succ k2 =>
      rw [List.replicate_succ, List.replicate_succ, List.getLast?_cons_cons,
        ← List.replicate_succ]
      exact ih (by omega)

/-! ## Claims -/

/-- C1: `log` at severity S writes a message to the sink iff S's ordinal is
at most the configured threshold's ordinal; when S's ordinal exceeds the
threshold, `log` returns immediately, leaving the logger (sink included)
completely unchanged. -/
theorem claim_C1 (env : Env) (l : Logger) (level : Int) (skip : Nat)
    (format : String) (a : List FmtArg) :
    (l.level < level → Logger.log env l level skip format a = l) ∧
    ((∃ m, (Logger.log env l level skip format a).sink.calls
        = l.sink.calls ++ [m]) ↔ level ≤ l.level) := by
  constructor
  · intro h
    unfold Logger.log
    rw [if_pos h]
  · constructor
    · rintro ⟨m, hm⟩
      by_contra hle
      push_neg at hle
      unfold Logger.log at hm
      rw [if_pos hle] at hm
      rw [List.self_eq_append_right] at hm
      simp at hm
    · intro h
      refine ⟨buildMsg l.time env.now level (resolveCaller env skip)
        (sprintf format a), ?_⟩
      unfold Logger.log
      rw [if_neg (not_lt.mpr h)]
      rfl

/-- Witness for C1 at a concrete logger: a Debug message is dropped at an
Error threshold, an Error message is written. -/
theorem claim_C1_witness :
    Logger.log envA lgA DebugLevel 1 "x" [] = lgA ∧
    (∃ m, (Logger.log envA lgA ErrorLevel 1 "x" []).sink.calls
        = lgA.sink.calls ++ [m]) :=
  ⟨(claim_C1 envA lgA DebugLevel 1 "x" []).1 (by decide),
   ((claim_C1 envA lgA ErrorLevel 1 "x" []).2).mpr (by decide)⟩

/-- C3: the location field embedded in the message is always exactly 18
characters wide: shorter renderings are right-padded with spaces, longer
ones keep only their trailing 18 characters. -/
theorem claim_C3 (file : String) (line : Nat) :
    (locField file line).length = 18 := by
  show (padRight (if (flRaw file line).data.length > 18
      then takeRight (flRaw file line) 18 else flRaw file line) 18).length = 18
  rw [length_data]
  by_cases h : (flRaw file line).data.length > 18
  · rw [if_pos h, length_padRight, length_takeRight]
    omega
  · rw [if_neg h, length_padRight]
    omega

/-- C4: `Errorf` returns a non-nil error carrying exactly the printf-style
formatting of the arguments into the format string (`Errorf("x=%d", 5)`
yields message `"x=5"`), and its logging side is exactly a `log` call at
Error level — the returned error is built unconditionally, whatever the
threshold, so it exists even when the gate suppresses the write. -/
theorem claim_C4 (env : Env) (l : Logger) (format : String) (a : List FmtArg) :
    (Logger.Errorf env l format a).2.isSome = true ∧
    (Logger.Errorf env l format a).2 = some ⟨sprintf format a⟩ ∧
    (Logger.Errorf env l format a).1 = Logger.log env l ErrorLevel 1 format a ∧
    sprintf "x=%d" [.int 5] = "x=5" :=
  ⟨rfl, rfl, rfl, by decide⟩

/-- C8: `Fatalf` and `Fatal` always end with process exit status 1, after
their logging step (which is exactly a `log` call at Fatal level).  The
statement quantifies over every logger — thresholds that suppress the write
and sinks whose device rejects writes included — so termination is
unconditional; in the model the exit status is the call's final result, so
the functions never return control with any other outcome. -/
theorem claim_C8 (env : Env) (l : Logger) (format : String) (a : List FmtArg)
    (err : GoError) :
    (Logger.Fatalf env l format a).2 = 1 ∧
    (Logger.Fatal env l err).2 = 1 ∧
    (Logger.Fatalf env l format a).1 = Logger.log env l FatalLevel 1 format a ∧
    (Logger.Fatal env l err).1
      = Logger.log env l FatalLevel 1 "Error: %v\n" [.err err] :=
  ⟨rfl, rfl, rfl, rfl⟩

lemma preservesConfig_log (env : Env) (l : Logger) (level : Int) (skip : Nat)
    (format : String) (a : List FmtArg) :
    preservesConfig (Logger.log env l level skip format a) l := by
  unfold Logger.log
  split
  · exact ⟨rfl, rfl, rfl, ⟨[], by simp⟩, ⟨[], by simp⟩⟩
  · refine ⟨rfl, rfl, rfl, ⟨[buildMsg l.time env.now level
      (resolveCaller env skip) (sprintf format a)], rfl⟩, ?_⟩
    simp only [Sink.write]
    split
    · exact ⟨[buildMsg l.time env.now level (resolveCaller env skip)
        (sprintf format a)], rfl⟩
    · exact ⟨[], by simp⟩

/-- C10: no logging operation changes the logger's threshold, timestamp
flag, or sink device; the only state any of them touches is the sink's
written contents, which are only ever appended to. -/
theorem claim_C10 (env : Env) (l : Logger) (level : Int) (skip : Nat)
    (format : String) (a : List FmtArg) (err : GoError) :
    preservesConfig (Logger.log env l level skip format a) l ∧
    preservesConfig (Logger.Debugf env l format a) l ∧
    preservesConfig (Logger.Infof env l format a) l ∧
    preservesConfig (Logger.Errorf env l format a).1 l ∧
    preservesConfig (Logger.Error env l err).1 l ∧
    preservesConfig (Logger.Fatalf env l format a).1 l ∧
    preservesConfig (Logger.Fatal env l err).1 l :=
  ⟨preservesConfig_log env l level skip format a,
   preservesConfig_log env l DebugLevel 1 format a,
   preservesConfig_log env l InfoLevel 1 format a,
   preservesConfig_log env l ErrorLevel 1 format a,
   preservesConfig_log env l ErrorLevel 1 "Error: %v\n" [.err err],
   preservesConfig_log env l FatalLevel 1 format a,
   preservesConfig_log env l FatalLevel 1 "Error: %v\n" [.err err]⟩

/-- C2 counterexample: the claim says the final message never ends with more
than one newline whatever the body's trailing newlines; but a body already
ending in two newlines is passed through unchanged (the code only checks
whether one newline is present), so the written line still ends in a newline
after its last character is removed — two trailing newlines. -/
theorem claim_C2_counterexample :
    (Logger.log envA lgA ErrorLevel 1 "hi\n\n" []).sink.calls
      = ["E a.go:7             hi\n\n"] ∧
    hasSuffixNL ⟨("E a.go:7             hi\n\n").data.dropLast⟩ = true := by
  decide

/-- C2 amended: every line `log` emits ends with at least one trailing
newline; a newline is appended exactly when the formatted body does not
already end with one, and a body that already ends with newlines is passed
through unchanged (so its trailing newlines, possibly several, are kept). -/
theorem claim_C2_amended (env : Env) (l : Logger) (level : Int) (skip : Nat)
    (format : String) (a : List FmtArg) (h : level ≤ l.level) :
    (Logger.log env l level skip format a).sink.calls
      = l.sink.calls ++ [msgHdr l.time env.now level (resolveCaller env skip)
          ++ (if hasSuffixNL (sprintf format a) then sprintf format a
              else sprintf format a ++ "\n")] ∧
    hasSuffixNL (buildMsg l.time env.now level (resolveCaller env skip)
        (sprintf format a)) = true := by
  constructor
  · unfold Logger.log
    rw [if_neg (not_lt.mpr h)]
    show l.sink.calls ++ [buildMsg l.time env.now level (resolveCaller env skip)
        (sprintf format a)] = _
    rw [buildMsg_split]
  · rw [buildMsg_split, hasSuffixNL_header _ _
      (msgHdr_ends_space l.time env.now level (resolveCaller env skip))]
    by_cases hb : hasSuffixNL (sprintf format a)
    · rw [if_pos hb]
      exact hb
    · rw [if_neg hb]
      exact hasSuffixNL_concat _

/-- Witness for the amended C2 at a concrete logger and body. -/
theorem claim_C2_amended_witness :
    (Logger.log envA lgA ErrorLevel 1 "ok" []).sink.calls
      = lgA.sink.calls ++ [msgHdr lgA.time envA.now ErrorLevel (resolveCaller envA 1)
          ++ (if hasSuffixNL (sprintf "ok" []) then sprintf "ok" []
              else sprintf "ok" [] ++ "\n")] ∧
    hasSuffixNL (buildMsg lgA.time envA.now ErrorLevel (resolveCaller envA 1)
        (sprintf "ok" [])) = true :=
  claim_C2_amended envA lgA ErrorLevel 1 "ok" [] (by decide)

/-- C5: for a fixed severity, format, arguments and caller location, the
line written with the timestamp flag on is exactly the
`YYYY/MM/DD HH:MM:SS ` segment followed by the line written with the flag
off; nothing else differs. -/
theorem claim_C5 (env : Env) (lv : Int) (sk : Sink) (level : Int) (skip : Nat)
    (format : String) (a : List FmtArg) (h : level ≤ lv) :
    ∃ m,
      (Logger.log env ⟨lv, false, sk⟩ level skip format a).sink.calls
        = sk.calls ++ [m] ∧
      (Logger.log env ⟨lv, true, sk⟩ level skip format a).sink.calls
        = sk.calls ++ [renderTime env.now ++ m] := by
  refine ⟨buildMsg false env.now level (resolveCaller env skip) (sprintf format a),
    ?_, ?_⟩
  · unfold Logger.log
    rw [if_neg (not_lt.mpr h)]
    rfl
  · unfold Logger.log
    rw [if_neg (not_lt.mpr h)]
    have hb : buildMsg true env.now level (resolveCaller env skip) (sprintf format a)
        = renderTime env.now
          ++ buildMsg false env.now level (resolveCaller env skip) (sprintf format a) := by
      rw [buildMsg_split, buildMsg_split]
      simp [msgHdr, String.append_assoc]
    show sk.calls ++ [buildMsg true env.now level (resolveCaller env skip)
        (sprintf format a)] = _
    rw [hb]

/-- Witness for C5 at a concrete logger pair. -/
theorem claim_C5_witness :
    ∃ m,
      (Logger.log envA ⟨ErrorLevel, false, ⟨[], true, []⟩⟩ ErrorLevel 1 "m" []).sink.calls
        = (⟨[], true, []⟩ : Sink).calls ++ [m] ∧
      (Logger.log envA ⟨ErrorLevel, true, ⟨[], true, []⟩⟩ ErrorLevel 1 "m" []).sink.calls
        = (⟨[], true, []⟩ : Sink).calls ++ [renderTime envA.now ++ m] :=
  claim_C5 envA ErrorLevel ⟨[], true, []⟩ ErrorLevel 1 "m" [] (by decide)

/-- C6: `Error err` returns the very error value it was given, its logging
side is exactly a `log` call at Error severity, and the logged body is
`"Error: "` followed by the error's rendering (the source format string
already ends the body with a newline). -/
theorem claim_C6 (env : Env) (l : Logger) (err : GoError) :
    (Logger.Error env l err).2 = err ∧
    (Logger.Error env l err).1 = Logger.log env l ErrorLevel 1 "Error: %v\n" [.err err] ∧
    sprintf "Error: %v\n" [.err err] = "Error: " ++ err.msg ++ "\n" ∧
    (ErrorLevel ≤ l.level →
      (Logger.Error env l err).1.sink.calls
        = l.sink.calls ++ [buildMsg l.time env.now ErrorLevel (resolveCaller env 1)
            ("Error: " ++ err.msg ++ "\n")]) := by
  refine ⟨rfl, rfl, sprintf_error_fmt err, ?_⟩
  intro h
  show (Logger.log env l ErrorLevel 1 "Error: %v\n" [.err err]).sink.calls = _
  unfold Logger.log
  rw [if_neg (not_lt.mpr h)]
  show l.sink.calls ++ [buildMsg l.time env.now ErrorLevel (resolveCaller env 1)
      (sprintf "Error: %v\n" [.err err])] = _
  rw [sprintf_error_fmt]

/-- Witness for C6 at a concrete error value. -/
theorem claim_C6_witness :
    (Logger.Error envA lgA ⟨"boom"⟩).1.sink.calls
      = lgA.sink.calls ++ [buildMsg lgA.time envA.now ErrorLevel (resolveCaller envA 1)
          ("Error: " ++ (GoError.mk "boom").msg ++ "\n")] :=
  (claim_C6 envA lgA ⟨"boom"⟩).2.2.2 (by decide)

/-- C7: a severity outside the four recognized levels that still passes the
gate produces a line whose marker is the decimal rendering of its integer
ordinal, in place of one of the letters. -/
theorem claim_C7 (env : Env) (l : Logger) (level : Int) (skip : Nat)
    (format : String) (a : List FmtArg)
    (hpass : level ≤ l.level)
    (h0 : level ≠ FatalLevel) (h1 : level ≠ ErrorLevel)
    (h2 : level ≠ InfoLevel) (h3 : level ≠ DebugLevel) :
    ∃ rest,
      (Logger.log env l level skip format a).sink.calls
        = l.sink.calls ++ [(if l.time then renderTime env.now else "")
            ++ (intRepr level ++ (" " ++ rest))] := by
  have hletter : letterOf level = intRepr level := by
    simp [letterOf, levelToLetter, h0, h1, h2, h3]
  refine ⟨locField (resolveCaller env skip).1 (resolveCaller env skip).2 ++
    (" " ++ (if hasSuffixNL (sprintf format a) then sprintf format a
             else sprintf format a ++ "\n")), ?_⟩
  unfold Logger.log
  rw [if_neg (not_lt.mpr hpass)]
  show l.sink.calls ++ [buildMsg l.time env.now level (resolveCaller env skip)
      (sprintf format a)] = _
  rw [buildMsg_split]
  cases hl : l.time <;>
    simp [msgHdr, hletter, String.append_assoc, String.empty_append]

/-- Witness for C7 at the out-of-range ordinal 9. -/
theorem claim_C7_witness :
    ∃ rest,
      (Logger.log envA lgC 9 1 "x" []).sink.calls
        = lgC.sink.calls ++ [(if lgC.time then renderTime envA.now else "")
            ++ (intRepr 9 ++ (" " ++ rest))] :=
  claim_C7 envA lgC 9 1 "x" [] (by decide) (by decide) (by decide)
    (by decide) (by decide)

/-- C9: before the 18-character fitting, the location is rendered as the
basename, a colon, and the line number left-justified in a minimum field
width of 4; for every line number below 1000 at least one trailing space
follows the digits, and these spaces are part of the string the width
padding and trailing-18 truncation operate on. -/
theorem claim_C9 (file : String) (line : Nat) (h : line < 1000) :
    flRaw file line
      = filepathBase file ++ ":" ++
        (natRepr line ++ ⟨List.replicate (4 - (natDigits line).length) ' '⟩) ∧
    1 ≤ 4 - (natDigits line).length ∧
    (flRaw file line).data.getLast? = some ' ' ∧
    locField file line
      = padRight (if (flRaw file line).data.length > 18
          then takeRight (flRaw file line) 18 else flRaw file line) 18 := by
  have hlen := natDigits_length_le_three line h
  refine ⟨rfl, by omega, ?_, rfl⟩
  show ((filepathBase file ++ ":") ++ padRight (natRepr line) 4).data.getLast?
      = some ' '
  rw [String.data_append, List.getLast?_append]
  show ((natDigits line
      ++ List.replicate (4 - (natDigits line).length) ' ').getLast?).or _ = some ' '
  rw [List.getLast?_append, getLast?_replicate_pos _ _ (by omega)]
  rfl

/-- Witness for C9 at a concrete file and line. -/
theorem claim_C9_witness :
    flRaw "a.go" 7
      = filepathBase "a.go" ++ ":" ++
        (natRepr 7 ++ ⟨List.replicate (4 - (natDigits 7).length) ' '⟩) ∧
    1 ≤ 4 - (natDigits 7).length ∧
    (flRaw "a.go" 7).data.getLast? = some ' ' ∧
    locField "a.go" 7
      = padRight (if (flRaw "a.go" 7).data.length > 18
          then takeRight (flRaw "a.go" 7) 18 else flRaw "a.go" 7) 18 :=
  claim_C9 "a.go" 7 (by decide)

end Logsim
